import Mathlib

/-!
Verification of the `mcp-serial-hid-kvm` MCP server against its design
specification.  The development shallowly embeds the Python sources
(`ocr.py`, `server.py`, `config.py`) as Lean definitions:

* `TerminalOCR._postprocess_text` / `TerminalOCR.extract_text` (ocr.py) become
  pure functions on `List Char` / `String`, with the external recognition
  engine modelled as an `Except`-valued oracle;
* the adaptive JPEG encoding loop of the `capture_screen` branch of
  `call_tool` (server.py) becomes a well-founded recursion over the quality
  counter, parameterised by an abstract encoded-size oracle;
* `call_tool` itself becomes a total function from a tool name, an untyped
  argument mapping and an environment (remote service, recognition engine,
  frame source) to an event trace plus a tool result, with Python exceptions
  modelled by `Except String`;
* `_save_capture_log` (server.py) becomes a total function returning the
  optional saved path together with its filesystem event.

External collaborators (KVM client, tesseract, PIL, the filesystem and the
clock) are modelled as oracle parameters, never as fixed stubs.
-/

set_option autoImplicit false

namespace KvmSpec

/-! ### Python string primitives used by `_postprocess_text` -/

/-- Characters stripped by Python `str.strip()` / `str.rstrip()` (the ASCII
whitespace actually relevant to OCR text; astral unicode spaces are out of
scope for the embedded strings). -/
def isPySpace (c : Char) : Bool :=
  c = ' ' || c = '\t' || c = '\n' || c = '\r' || c = '\x0b' || c = '\x0c'

/-- Python `str.rstrip()` with no argument. -/
def pyRstrip (l : List Char) : List Char :=
  (l.reverse.dropWhile isPySpace).reverse

/-- Python `str.strip()` with no argument. -/
def pyStrip (l : List Char) : List Char :=
  ((l.dropWhile isPySpace).reverse.dropWhile isPySpace).reverse

/-- Python `str.split("\n")`: split on every newline, keeping empty parts
(so `"".split` gives one empty part and a trailing newline yields a trailing
empty part). -/
def splitNl : List Char → List (List Char)
  | [] => [[]]
  | c :: t =>
    if c = '\n' then [] :: splitNl t
    else
      match splitNl t with
      | h :: rest => (c :: h) :: rest
      | [] => [[c]]

/-- Python `"\n".join(...)`. -/
def joinNl : List (List Char) → List Char
  | [] => []
  | [x] => x
  | x :: xs => x ++ '\n' :: joinNl xs

/-- Python `str.replace(k, r)`: global, leftmost, non-overlapping
replacement.  (All keys used in the source are non-empty.) -/
def pyReplace (k r : List Char) : List Char → List Char
  | [] => []
  | c :: t =>
    if k <+: c :: t then r ++ pyReplace k r (t.drop (k.length - 1))
    else c :: pyReplace k r t
termination_by s => s.length
decreasing_by
  · simp only [List.length_drop, List.length_cons]
    omega
  · simp only [List.length_cons]
    omega

/-- Emit a run of `n` newlines as `re.sub(r"\n{4,}", "\n\n\n", ...)` leaves
it: runs of four or more newlines become exactly three. -/
def collapsedRun (n : Nat) : List Char :=
  List.replicate (if 4 ≤ n then 3 else n) '\n'

/-- Scanner for `re.sub(r"\n{4,}", "\n\n\n", ...)`: `n` counts the newline
run currently being read. -/
def collapseNlAux : Nat → List Char → List Char
  | n, [] => collapsedRun n
  | n, c :: t =>
    if c = '\n' then collapseNlAux (n + 1) t
    else collapsedRun n ++ c :: collapseNlAux 0 t

/-- `re.sub(r"\n{4,}", "\n\n\n", result)` from `_postprocess_text`: every
maximal run of at least four newlines is replaced by three newlines. -/
def collapseNl (l : List Char) : List Char :=
  collapseNlAux 0 l

/-- The `safe_corrections` table of `_postprocess_text`, in its Python
insertion (iteration) order. -/
def safeCorrections : List (List Char × List Char) :=
  [ ((' ' :: '|' :: 's' :: ' ' :: []), (' ' :: 'l' :: 's' :: ' ' :: [])),
    ((' ' :: '|' :: 's' :: '\n' :: []), (' ' :: 'l' :: 's' :: '\n' :: [])),
    (('\n' :: '|' :: 's' :: ' ' :: []), ('\n' :: 'l' :: 's' :: ' ' :: [])) ]

/-- Common shape of every `safe_corrections` key: a boundary character, the
misread `"|s"`, and a boundary character. -/
def okey (x y : Char) : List Char := [x, '|', 's', y]

/-- Common shape of every `safe_corrections` value: the key with `'|'`
corrected to `'l'`, boundaries unchanged. -/
def oval (x y : Char) : List Char := [x, 'l', 's', y]

/-- One `str.replace` step with an `okey`/`oval` pair. -/
def repl (x y : Char) (l : List Char) : List Char :=
  pyReplace (okey x y) (oval x y) l

/-- Boundary characters of the correction keys are none of `'|'`, `'s'`,
`'l'` (both `' '` and `'\n'` qualify); this is what makes the entries
commute. -/
def safeB (c : Char) : Prop := c ≠ '|' ∧ c ≠ 's' ∧ c ≠ 'l'

/-- Apply a list of `(wrong, correct)` substitutions left to right, exactly
like the `for wrong, correct in ...: result = result.replace(...)` loop. -/
def applyCorrections (tbl : List (List Char × List Char)) (l : List Char) :
    List Char :=
  tbl.foldl (fun acc kr => pyReplace kr.1 kr.2 acc) l

/-- `TerminalOCR._postprocess_text` on the underlying character list:
split into lines, strip each line's trailing whitespace, rejoin, collapse
newline runs, apply the correction table, strip the whole result. -/
def postprocessTextL (l : List Char) : List Char :=
  pyStrip (applyCorrections safeCorrections
    (collapseNl (joinNl ((splitNl l).map pyRstrip))))

/-- `TerminalOCR._postprocess_text` as a `String` transformer. -/
def postprocessText (s : String) : String :=
  String.mk (postprocessTextL s.data)

/-! ### `TerminalOCR.extract_text` -/

/-- An in-memory raster image (a `Frame` of the spec).  Pixel content is
abstracted to a tag consumed by the oracles; dimensions are explicit. -/
structure Img where
  width : Nat
  height : Nat
  pix : Nat
  deriving DecidableEq, Repr

/-- `TerminalOCR.extract_text`: optionally preprocess, call the recognition
engine, postprocess on success, and on engine failure return the
`"[OCR Error: ...]"` marker instead of raising.  `pre` models
`preprocess_image` and `engine` models `pytesseract.image_to_string`. -/
def extractText (pre : Img → Img) (engine : Img → Except String String)
    (image : Img) (preprocess : Bool := true) : String :=
  let processed := if preprocess then pre image else image
  match engine processed with
  | .ok text => postprocessText text
  | .error e => "[OCR Error: " ++ e ++ "]"

/-! ### Adaptive JPEG encoding (`capture_screen` branch, server.py 403-424)

The encoded byte size of a given image at a given JPEG quality is an
external fact about PIL's encoder, so it enters as an oracle
`sz : Img → Nat → Nat`. -/

/-- The `while buffer.tell() > 10_000_000 and quality > 20` loop: the list of
qualities encoded inside the loop (in order), starting from current quality
`q` whose encode is already in the buffer. -/
def qualityLoop (sz : Nat → Nat) (q : Nat) : List Nat :=
  if sz q > 10000000 ∧ q > 20 then (q - 15) :: qualityLoop sz (q - 15) else []
termination_by q
decreasing_by omega

/-- Descriptor of the JPEG buffer finally returned: which image was encoded,
at which quality, and the resulting byte size. -/
structure EncOut where
  image : Img
  quality : Nat
  size : Nat
  deriving DecidableEq, Repr

/-- The adaptive encoding of the `capture_screen` branch: encode at quality
85, run the reduce-by-15 loop, and if the result still exceeds the
10,000,000-byte ceiling, halve both dimensions and re-encode once at quality
60 regardless of the resulting size.  Returns the full list of qualities
attempted on the original image together with the final buffer. -/
def adaptiveEncode (sz : Img → Nat → Nat) (image : Img) : List Nat × EncOut :=
  let loopQs := qualityLoop (sz image) 85
  let q := loopQs.getLastD 85
  if sz image q > 10000000 then
    let image2 : Img := ⟨image.width / 2, image.height / 2, image.pix⟩
    (85 :: loopQs, ⟨image2, 60, sz image2 60⟩)
  else
    (85 :: loopQs, ⟨image, q, sz image q⟩)

/-! ### Untyped tool arguments (the MCP argument mapping) -/

/-- JSON-like values as delivered in the `arguments` dict of a tool call. -/
inductive JVal
  | str (s : String)
  | num (q : ℚ)
  | bool (b : Bool)
  | arr (xs : List JVal)
  | obj (kvs : List (String × JVal))
  | null
  deriving BEq

/-- The `x is not None` test. -/
def JVal.isNull : JVal → Bool
  | .null => true
  | _ => false

/-- Argument mapping: Python dict from argument name to value. -/
abbrev Args := List (String × JVal)

/-- Look an argument up (`arguments.get(k)`). -/
def getOpt (args : Args) (k : String) : Option JVal :=
  args.lookup k

/-- Subscripting `arguments[k]`: a missing key raises `KeyError(k)`, whose
`str()` is the quoted key. -/
def getReq (args : Args) (k : String) : Except String JVal :=
  match getOpt args k with
  | some v => .ok v
  | none => .error ("'" ++ k ++ "'")

/-- Lookup with default (`arguments.get(k, d)`). -/
def getDef (args : Args) (k : String) (d : JVal) : JVal :=
  (getOpt args k).getD d

/-- Python truthiness of a JSON value (`if relative:`, `if not devices:`,
`if modifiers`). -/
def truthy : JVal → Bool
  | .str s => !s.isEmpty
  | .num q => decide (q ≠ 0)
  | .bool b => b
  | .arr xs => !xs.isEmpty
  | .obj kvs => !kvs.isEmpty
  | .null => false

/-- Python `len(...)`: defined on strings, lists and dicts, raises
`TypeError` otherwise. -/
def pyLen : JVal → Except String Nat
  | .str s => .ok s.length
  | .arr xs => .ok xs.length
  | .obj kvs => .ok kvs.length
  | _ => .error "object has no len()"

/-- Coercion to a number where Python would apply numeric operations
(`amount > 0`, `asyncio.sleep(wait_seconds)`); Python `bool` is an `int`,
other non-numbers raise `TypeError`. -/
def asNum : JVal → Except String ℚ
  | .num q => .ok q
  | .bool b => .ok (if b then 1 else 0)
  | _ => .error "unsupported operand type"

/-- Python `str()` of a rational: integral values print as integers;
decimal formatting of non-integral floats is nominal here. -/
def pyStrQ (q : ℚ) : String :=
  if q.den = 1 then toString q.num else toString q

/-- Python `str()` as used inside the f-strings of `call_tool`; the rendering
of containers is nominal (no claim inspects it). -/
def pyStr : JVal → String
  | .str s => s
  | .num q => pyStrQ q
  | .bool b => if b then "True" else "False"
  | .null => "None"
  | .arr _ => "[...]"
  | .obj _ => "dict(...)"

/-- The elements of a modifier list as strings (`"+".join(modifiers)`
requires every element to be a string). -/
def strList : List JVal → Except String (List String)
  | [] => .ok []
  | .str s :: t => do
    let rest ← strList t
    .ok (s :: rest)
  | _ :: _ => .error "sequence item: expected str instance"

/-- Models `"+".join(modifiers) + "+" if modifiers else ""` from the
`send_key` branch. -/
def joinModsPlus (v : JVal) : Except String String :=
  if truthy v then
    match v with
    | .arr xs => do
      let ss ← strList xs
      .ok (String.intercalate "+" ss ++ "+")
    | .str s => .ok (String.intercalate "+" (s.data.map fun c => String.mk [c]) ++ "+")
    | _ => .error "can only join an iterable"
  else
    .ok ""

/-- Models `d.get(k, default)`: raises `AttributeError` when the receiver is
not a dict. -/
def dictGet (v : JVal) (k : String) (d : JVal) : Except String JVal :=
  match v with
  | .obj kvs => .ok ((kvs.lookup k).getD d)
  | _ => .error "object has no attribute get"

mutual

/-- Nominal `json.dumps` (no claim depends on the concrete rendering;
indentation and string escaping are elided). -/
def jsonDumps : JVal → String
  | .str s => "\"" ++ s ++ "\""
  | .num q => pyStrQ q
  | .bool b => if b then "true" else "false"
  | .null => "null"
  | .arr xs => "[" ++ jsonDumpsList xs ++ "]"
  | .obj kvs => "\x7b" ++ jsonDumpsObj kvs ++ "\x7d"

def jsonDumpsList : List JVal → String
  | [] => ""
  | [x] => jsonDumps x
  | x :: xs => jsonDumps x ++ ", " ++ jsonDumpsList xs

def jsonDumpsObj : List (String × JVal) → String
  | [] => ""
  | [(k, x)] => "\"" ++ k ++ "\": " ++ jsonDumps x
  | (k, x) :: xs => "\"" ++ k ++ "\": " ++ jsonDumps x ++ ", " ++ jsonDumpsObj xs

end

/-! ### The command dispatcher (`call_tool`, server.py 338-490) -/

/-- One operation of the remote KVM service (`KvmClient` method calls), with
the argument values exactly as the dispatcher passes them. -/
inductive RemoteOp
  | typeTextOp (text : JVal) (charDelay : Option JVal)
  | sendKeyOp (key : JVal) (modifiers : Option JVal)
  | sendKeySequenceOp (steps : JVal) (defaultDelay : JVal)
  | mouseMoveOp (x y : JVal) (relative : Option JVal)
  | mouseClickOp (button x y : JVal)
  | mouseDownOp (button x y : JVal)
  | mouseUpOp (button x y : JVal)
  | mouseScrollOp (amount : JVal)
  | captureFrameOp (quality : Nat)
  | getDeviceInfoOp
  | setCaptureResolutionOp (w h : JVal)
  | listCaptureDevicesOp
  | setCaptureDeviceOp (device : JVal)

/-- Observable steps of one tool invocation: connecting to the KVM server,
issuing a remote call, an `asyncio.sleep`, or handing a frame to
`_save_capture_log`. -/
inductive Event
  | connect
  | remote (op : RemoteOp)
  | sleepMs (ms : ℚ)
  | captureLog (suffix : String)

/-- Is an event a remote-service call? -/
def Event.isRemote : Event → Bool
  | .remote _ => true
  | _ => false

/-- The single content item `call_tool` returns: a text payload or an image
payload.  The image bytes are represented by the encoded (image, quality)
descriptor of the JPEG buffer, base64 transport being external. -/
inductive ToolResult
  | text (s : String)
  | image (image : Img) (quality : Nat) (mime : String)

/-- All external collaborators of the dispatcher: the remote KVM service,
PIL's JPEG encoder, the OCR engine, configuration and the filesystem. -/
structure Env where
  /-- Outcome of `KvmClient.connect()`. -/
  connectRes : Except String Unit
  /-- Outcome of each remote call (`KvmClient` methods), as a JSON value. -/
  call : RemoteOp → Except String JVal
  /-- `capture_frame_jpeg(quality)` followed by `Image.open`. -/
  fetchFrame : Nat → Except String Img
  /-- Encoded JPEG byte size of an image at a quality (PIL encoder). -/
  jpegSize : Img → Nat → Nat
  /-- `TerminalOCR.preprocess_image` (pixel-level PIL transform). -/
  preprocessFn : Img → Img
  /-- `pytesseract.image_to_string`. -/
  ocr : Img → Except String String
  /-- `config.capture_log_dir` (`None` disables capture logging). -/
  logDir : Option String
  /-- Outcome of `os.makedirs` + `image.save` in `_save_capture_log`. -/
  saveRes : Except String Unit
  /-- `datetime.datetime.now().strftime("%Y-%m-%d_%H-%M-%S")`. -/
  now : String

/-! ### `_save_capture_log` (server.py 54-71) -/

/-- Filesystem-visible outcome of `_save_capture_log`. -/
inductive FsEvent
  | savedJpeg (path : String) (quality : Nat)
  | warnLog (msg : String)
  deriving BEq

/-- `_save_capture_log`: nothing happens when no log directory is
configured; otherwise the image is saved as a JPEG at quality 85 under a
timestamped name with an optional tag suffix, and any filesystem failure is
swallowed into a warning, returning `None`. -/
def saveCaptureLog (env : Env) (_image : Img) (suffix : String) :
    Option String × List FsEvent :=
  match env.logDir with
  | none => (none, [])
  | some dir =>
    let tag := if suffix ≠ "" then "_" ++ suffix else ""
    let filename := env.now ++ tag ++ ".jpg"
    let filepath := dir ++ "/" ++ filename
    match env.saveRes with
    | .ok _ => (some filepath, [.savedJpeg filepath 85])
    | .error e => (none, [.warnLog ("Failed to save capture log: " ++ e)])

/-! ### Dispatcher plumbing -/

/-- A step of the handler body: the events issued so far paired with either
a value or the pending Python exception. -/
def Proc (α : Type) : Type := List Event × Except String α

/-- Return a value, issuing no event. -/
def Proc.pure {α : Type} (a : α) : Proc α := ([], .ok a)

/-- Sequencing: an exception short-circuits, but events already issued
remain issued. -/
def Proc.bind {α β : Type} (p : Proc α) (f : α → Proc β) : Proc β :=
  match p with
  | (evs, .error e) => (evs, .error e)
  | (evs, .ok a) =>
    let q := f a
    (evs ++ q.1, q.2)

/-- Lift an exception-or-value with no events. -/
def Proc.ofExcept {α : Type} (x : Except String α) : Proc α := ([], x)

/-- Issue one remote call. -/
def callR (env : Env) (op : RemoteOp) : Proc JVal :=
  ([.remote op], env.call op)

/-- `_capture_image(quality)`: fetch a frame from the KVM server. -/
def fetchF (env : Env) (q : Nat) : Proc Img :=
  ([.remote (.captureFrameOp q)], env.fetchFrame q)

/-- An `await asyncio.sleep(...)`, recorded in milliseconds. -/
def sleepP (ms : ℚ) : Proc Unit :=
  ([.sleepMs ms], .ok ())

/-- A required argument (`arguments[k]`). -/
def reqArg (args : Args) (k : String) : Proc JVal :=
  ([], getReq args k)

/-- Handing the frame to `_save_capture_log`; by the `saveCaptureLog`
theorems this call never raises, so it is a pure event here. -/
def logCap (suffix : String) : Proc Unit :=
  ([.captureLog suffix], .ok ())

/-- The per-tool handler body of `call_tool` (the `if name == ...` chain
inside the `try`), translated branch by branch from server.py 344-483. -/
def callToolBody (env : Env) (name : String) (args : Args) : Proc ToolResult :=
  if name = "type_text" then
    (reqArg args "text").bind fun text =>
    (callR env (.typeTextOp text (getOpt args "char_delay_ms"))).bind fun _ =>
    (Proc.ofExcept (pyLen text)).bind fun n =>
    Proc.pure (.text ("Typed " ++ toString n ++ " characters"))
  else if name = "send_key" then
    (reqArg args "key").bind fun key =>
    let modifiers := getDef args "modifiers" (.arr [])
    (callR env (.sendKeyOp key (some modifiers))).bind fun _ =>
    (Proc.ofExcept (joinModsPlus modifiers)).bind fun modStr =>
    Proc.pure (.text ("Sent: " ++ modStr ++ pyStr key))
  else if name = "send_key_sequence" then
    (reqArg args "steps").bind fun steps =>
    let defaultDelay := getDef args "default_delay_ms" (.num 100)
    (callR env (.sendKeySequenceOp steps defaultDelay)).bind fun _ =>
    (Proc.ofExcept (pyLen steps)).bind fun n =>
    Proc.pure (.text ("Sent " ++ toString n ++ " key steps"))
  else if name = "mouse_move" then
    (reqArg args "x").bind fun x =>
    (reqArg args "y").bind fun y =>
    let relative := getDef args "relative" (.bool false)
    (callR env (.mouseMoveOp x y (some relative))).bind fun _ =>
    Proc.pure (.text (if truthy relative then
      "Moved mouse by (" ++ pyStr x ++ ", " ++ pyStr y ++ ")"
    else
      "Moved mouse to (" ++ pyStr x ++ ", " ++ pyStr y ++ ")"))
  else if name = "mouse_click" then
    let button := getDef args "button" (.str "left")
    let x := getDef args "x" .null
    let y := getDef args "y" .null
    (callR env (.mouseClickOp button x y)).bind fun _ =>
    let posStr := if x.isNull = false ∧ y.isNull = false then
      " at (" ++ pyStr x ++ ", " ++ pyStr y ++ ")"
    else ""
    Proc.pure (.text ("Clicked " ++ pyStr button ++ posStr))
  else if name = "mouse_drag" then
    (reqArg args "start_x").bind fun startX =>
    (reqArg args "start_y").bind fun startY =>
    (reqArg args "end_x").bind fun endX =>
    (reqArg args "end_y").bind fun endY =>
    let button := getDef args "button" (.str "left")
    (callR env (.mouseDownOp button startX startY)).bind fun _ =>
    (sleepP 50).bind fun _ =>
    (callR env (.mouseMoveOp endX endY none)).bind fun _ =>
    (sleepP 50).bind fun _ =>
    (callR env (.mouseUpOp button endX endY)).bind fun _ =>
    Proc.pure (.text ("Dragged " ++ pyStr button ++ " from (" ++ pyStr startX
      ++ ", " ++ pyStr startY ++ ") to (" ++ pyStr endX ++ ", "
      ++ pyStr endY ++ ")"))
  else if name = "mouse_scroll" then
    (reqArg args "amount").bind fun amount =>
    (callR env (.mouseScrollOp amount)).bind fun _ =>
    (Proc.ofExcept (asNum amount)).bind fun q =>
    let direction := if 0 < q then "up" else "down"
    Proc.pure (.text ("Scrolled " ++ direction ++ " by " ++ pyStrQ |q|))
  else if name = "capture_screen" then
    (fetchF env 85).bind fun image =>
    (logCap "capture").bind fun _ =>
    let out := (adaptiveEncode env.jpegSize image).2
    Proc.pure (.image out.image out.quality "image/jpeg")
  else if name = "get_screen_text" then
    (fetchF env 85).bind fun image =>
    (logCap "ocr").bind fun _ =>
    Proc.pure (.text (extractText env.preprocessFn env.ocr image true))
  else if name = "execute_and_read" then
    (reqArg args "command").bind fun command =>
    let waitSeconds := getDef args "wait_seconds" (.num 1)
    (callR env (.typeTextOp command none)).bind fun _ =>
    (sleepP 100).bind fun _ =>
    (callR env (.sendKeyOp (.str "enter") none)).bind fun _ =>
    (Proc.ofExcept (asNum waitSeconds)).bind fun w =>
    (sleepP (1000 * w)).bind fun _ =>
    (fetchF env 85).bind fun image =>
    (logCap "exec").bind fun _ =>
    Proc.pure (.text (extractText env.preprocessFn env.ocr image true))
  else if name = "get_device_info" then
    (callR env .getDeviceInfoOp).bind fun info =>
    Proc.pure (.text (jsonDumps info))
  else if name = "set_capture_resolution" then
    (reqArg args "width").bind fun width =>
    (reqArg args "height").bind fun height =>
    (callR env (.setCaptureResolutionOp width height)).bind fun result =>
    (Proc.ofExcept (dictGet result "info" (.obj []))).bind fun capInfo =>
    (Proc.ofExcept (dictGet capInfo "width" .null)).bind fun cw =>
    (Proc.ofExcept (dictGet capInfo "height" .null)).bind fun ch =>
    Proc.pure (.text ("Resolution set: " ++ pyStr cw ++ "x" ++ pyStr ch
      ++ " (requested " ++ pyStr width ++ "x" ++ pyStr height ++ ")"))
  else if name = "list_capture_devices" then
    (callR env .listCaptureDevicesOp).bind fun result =>
    (Proc.ofExcept (dictGet result "devices" (.arr []))).bind fun devices =>
    if truthy devices = false then
      Proc.pure (.text "No capture devices found.")
    else
      Proc.pure (.text (jsonDumps devices))
  else if name = "set_capture_device" then
    (reqArg args "device").bind fun device =>
    (callR env (.setCaptureDeviceOp device)).bind fun result =>
    (Proc.ofExcept (dictGet result "info" (.obj []))).bind fun capInfo =>
    (Proc.ofExcept (dictGet capInfo "width" .null)).bind fun cw =>
    (Proc.ofExcept (dictGet capInfo "height" .null)).bind fun ch =>
    (Proc.ofExcept (dictGet capInfo "backend" .null)).bind fun cb =>
    Proc.pure (.text ("Switched to device " ++ pyStr device ++ ": "
      ++ pyStr cw ++ "x" ++ pyStr ch ++ " (" ++ pyStr cb ++ ")"))
  else
    Proc.pure (.text ("Unknown tool: " ++ name))

/-- Process-global dispatcher state: whether the `_client` global already
holds a `KvmClient` instance. -/
structure MState where
  client : Option Unit
  deriving DecidableEq, Repr

/-- `get_client`: reuse the instance if present; otherwise construct one and
connect.  In the source `_client` is assigned before `connect()` is called,
so the instance persists even when connecting raises. -/
def getClient (env : Env) (st : MState) : MState × List Event × Except String Unit :=
  match st.client with
  | some _ => (st, [], .ok ())
  | none => (⟨some ()⟩, [.connect], env.connectRes)

/-- `call_tool`: acquire the shared client, run the per-tool body, and at
the boundary turn any raised error (`KvmClientError` or any other exception)
into a textual `"Error: ..."` result.  Total by construction, as the Python
handler never lets an exception escape. -/
def callTool (env : Env) (st : MState) (name : String) (args : Args) :
    MState × List Event × ToolResult :=
  let acq := getClient env st
  match acq.2.2 with
  | .error e => (acq.1, acq.2.1, .text ("Error: " ++ e))
  | .ok _ =>
    let body := callToolBody env name args
    match body.2 with
    | .ok r => (acq.1, acq.2.1 ++ body.1, r)
    | .error e => (acq.1, acq.2.1 ++ body.1, .text ("Error: " ++ e))

/-- The names `call_tool` dispatches on; anything else reaches the
`Unknown tool` branch. -/
def toolNames : List String :=
  ["type_text", "send_key", "send_key_sequence", "mouse_move", "mouse_click",
   "mouse_drag", "mouse_scroll", "capture_screen", "get_screen_text",
   "execute_and_read", "get_device_info", "set_capture_resolution",
   "list_capture_devices", "set_capture_device"]

/-! ### Concrete environments and arguments used by the witness theorems -/

/-- A fully healthy environment. -/
def envW : Env where
  connectRes := .ok ()
  call := fun _ => .ok .null
  fetchFrame := fun _ => .ok ⟨640, 480, 7⟩
  jpegSize := fun _ _ => 1000
  preprocessFn := fun i => i
  ocr := fun _ => .ok "hi"
  logDir := none
  saveRes := .ok ()
  now := "2026-10-12_00-00-00"

/-- `envW` with a failing KVM connection. -/
def envConnFail : Env := { envW with connectRes := .error "connection refused" }

/-- `envW` with a configured capture-log directory. -/
def envLogOk : Env := { envW with logDir := some "/tmp/caps" }

/-- `envLogOk` whose filesystem write fails. -/
def envLogFail : Env := { envLogOk with saveRes := .error "disk full" }

/-- Concrete `mouse_drag` arguments. -/
def dragArgsW : Args :=
  [("start_x", .num 1), ("start_y", .num 2), ("end_x", .num 3), ("end_y", .num 4)]

/-- Concrete `execute_and_read` arguments. -/
def execArgsW : Args := [("command", .str "ls"), ("wait_seconds", .num 2)]

/-! ## Theorems -/

/-- C5.  When the recognition engine fails, `extract_text` does not
propagate the error: it returns the `"[OCR Error: ...]"` marker string
embedding the failure reason, so the caller always receives text rather
than an exception (the function is total). -/
theorem extract_text_absorbs_engine_failure
    (pre : Img → Img) (engine : Img → Except String String) (image : Img)
    (preprocess : Bool) (e : String)
    (h : engine (if preprocess then pre image else image) = .error e) :
    extractText pre engine image preprocess = "[OCR Error: " ++ e ++ "]" := by
  simp only [extractText, h]

/-- Witness for C5: a concretely failing engine yields the concrete marker. -/
theorem extract_text_absorbs_engine_failure_witness :
    (fun _ : Img => (.error "tesseract is not installed" : Except String String))
        (if true then id (⟨1, 1, 0⟩ : Img) else ⟨1, 1, 0⟩) =
      .error "tesseract is not installed" ∧
    extractText id (fun _ => .error "tesseract is not installed") ⟨1, 1, 0⟩ true =
      "[OCR Error: " ++ "tesseract is not installed" ++ "]" :=
  ⟨rfl, extract_text_absorbs_engine_failure id
    (fun _ => .error "tesseract is not installed") ⟨1, 1, 0⟩ true
    "tesseract is not installed" rfl⟩

/-- C9.  `_save_capture_log` never raises: with no configured directory it
does nothing and creates no entry; a failing write is swallowed into a
warning and `None`; a successful write produces a JPEG at quality 85 named
by the second-resolution timestamp plus the optional tag suffix. -/
theorem save_capture_log_best_effort (env : Env) (image : Img) (suffix : String) :
    (env.logDir = none → saveCaptureLog env image suffix = (none, [])) ∧
    (∀ dir e, env.logDir = some dir → env.saveRes = .error e →
      saveCaptureLog env image suffix =
        (none, [.warnLog ("Failed to save capture log: " ++ e)])) ∧
    (∀ dir, env.logDir = some dir → env.saveRes = .ok () →
      saveCaptureLog env image suffix =
        (some (dir ++ "/" ++ (env.now ++ (if suffix = "" then "" else "_" ++ suffix)
            ++ ".jpg")),
         [.savedJpeg (dir ++ "/" ++ (env.now
            ++ (if suffix = "" then "" else "_" ++ suffix) ++ ".jpg")) 85])) := by
  refine ⟨fun h => ?_, fun dir e hdir hsave => ?_, fun dir hdir hsave => ?_⟩ <;>
    simp [saveCaptureLog, *]

/-- Witness for C9: all three cases at concrete inputs. -/
theorem save_capture_log_best_effort_witness :
    (envW.logDir = none ∧ saveCaptureLog envW ⟨1, 1, 0⟩ "capture" = (none, [])) ∧
    (envLogFail.logDir = some "/tmp/caps" ∧ envLogFail.saveRes = .error "disk full" ∧
      saveCaptureLog envLogFail ⟨1, 1, 0⟩ "ocr" =
        (none, [.warnLog ("Failed to save capture log: " ++ "disk full")])) ∧
    (envLogOk.logDir = some "/tmp/caps" ∧ envLogOk.saveRes = .ok () ∧
      saveCaptureLog envLogOk ⟨1, 1, 0⟩ "exec" =
        (some ("/tmp/caps" ++ "/" ++ (envLogOk.now
            ++ (if "exec" = "" then "" else "_" ++ "exec") ++ ".jpg")),
         [.savedJpeg ("/tmp/caps" ++ "/" ++ (envLogOk.now
            ++ (if "exec" = "" then "" else "_" ++ "exec") ++ ".jpg")) 85])) :=
  ⟨⟨rfl, (save_capture_log_best_effort envW ⟨1, 1, 0⟩ "capture").1 rfl⟩,
   ⟨rfl, rfl, (save_capture_log_best_effort envLogFail ⟨1, 1, 0⟩ "ocr").2.1
      "/tmp/caps" "disk full" rfl rfl⟩,
   ⟨rfl, rfl, (save_capture_log_best_effort envLogOk ⟨1, 1, 0⟩ "exec").2.2
      "/tmp/caps" rfl rfl⟩⟩

/-- One step of the quality loop when the guard holds. -/
theorem qualityLoop_pos (sz : Nat → Nat) (q : Nat) (h1 : sz q > 10000000)
    (h2 : q > 20) :
    qualityLoop sz q = (q - 15) :: qualityLoop sz (q - 15) := by
  rw [qualityLoop]
  simp [h1, h2]

/-- The quality loop stops when the guard fails. -/
theorem qualityLoop_neg (sz : Nat → Nat) (q : Nat)
    (h : ¬(sz q > 10000000 ∧ q > 20)) :
    qualityLoop sz q = [] := by
  rw [qualityLoop]
  simp only [if_neg h]

/-- Starting from quality 85, the loop re-encodes along a prefix of
`[70, 55, 40, 25, 10]`: at most five re-encodes. -/
theorem qualityLoop_shape (sz : Nat → Nat) :
    ∃ n, n ≤ 5 ∧ qualityLoop sz 85 = List.take n [70, 55, 40, 25, 10] := by
  by_cases h85 : sz 85 > 10000000
  · have e85 : qualityLoop sz 85 = 70 :: qualityLoop sz 70 := by
      have := qualityLoop_pos sz 85 h85 (by norm_num)
      norm_num at this
      exact this
    by_cases h70 : sz 70 > 10000000
    · have e70 : qualityLoop sz 70 = 55 :: qualityLoop sz 55 := by
        have := qualityLoop_pos sz 70 h70 (by norm_num)
        norm_num at this
        exact this
      by_cases h55 : sz 55 > 10000000
      · have e55 : qualityLoop sz 55 = 40 :: qualityLoop sz 40 := by
          have := qualityLoop_pos sz 55 h55 (by norm_num)
          norm_num at this
          exact this
        by_cases h40 : sz 40 > 10000000
        · have e40 : qualityLoop sz 40 = 25 :: qualityLoop sz 25 := by
            have := qualityLoop_pos sz 40 h40 (by norm_num)
            norm_num at this
            exact this
          by_cases h25 : sz 25 > 10000000
          · have e25 : qualityLoop sz 25 = 10 :: qualityLoop sz 10 := by
              have := qualityLoop_pos sz 25 h25 (by norm_num)
              norm_num at this
              exact this
            have e10 : qualityLoop sz 10 = [] :=
              qualityLoop_neg sz 10 (by omega)
            exact ⟨5, by omega, by rw [e85, e70, e55, e40, e25, e10]; rfl⟩
          · have e25 : qualityLoop sz 25 = [] :=
              qualityLoop_neg sz 25 (by tauto)
            exact ⟨4, by omega, by rw [e85, e70, e55, e40, e25]; rfl⟩
        · have e40 : qualityLoop sz 40 = [] := qualityLoop_neg sz 40 (by tauto)
          exact ⟨3, by omega, by rw [e85, e70, e55, e40]; rfl⟩
      · have e55 : qualityLoop sz 55 = [] := qualityLoop_neg sz 55 (by tauto)
        exact ⟨2, by omega, by rw [e85, e70, e55]; rfl⟩
    · have e70 : qualityLoop sz 70 = [] := qualityLoop_neg sz 70 (by tauto)
      exact ⟨1, by omega, by rw [e85, e70]; rfl⟩
  · exact ⟨0, by omega, qualityLoop_neg sz 85 (by tauto)⟩

/-- Every consecutive pair in `q :: qualityLoop sz q` witnesses the loop
guard: re-encoding happens only while the previous size exceeded the
ceiling and the previous quality was above 20, and each step drops the
quality by exactly 15. -/
theorem qualityLoop_chain (sz : Nat → Nat) (q : Nat) :
    ∀ i qi qn, (q :: qualityLoop sz q)[i]? = some qi →
      (q :: qualityLoop sz q)[i + 1]? = some qn →
      sz qi > 10000000 ∧ qi > 20 ∧ qn = qi - 15 := by
  induction q using Nat.strong_induction_on with
  | _ q IH =>
    intro i qi qn hi hn
    by_cases hc : sz q > 10000000 ∧ q > 20
    · rw [qualityLoop_pos sz q hc.1 hc.2] at hi hn
      match i with
      | 0 =>
        simp only [List.getElem?_cons_zero, Option.some.injEq] at hi
        simp only [List.getElem?_cons_succ, List.getElem?_cons_zero,
          Option.some.injEq] at hn
        exact hi ▸ hn ▸ ⟨hc.1, hc.2, rfl⟩
      | j + 1 =>
        rw [List.getElem?_cons_succ] at hi hn
        exact IH (q - 15) (by omega) j qi qn hi hn
    · rw [qualityLoop_neg sz q hc] at hi hn
      match i with
      | 0 => simp at hn
      | j + 1 => simp at hi

/-- C3.  The adaptive encoding terminates for every frame in a bounded
number of steps: after the initial encode at quality 85, the reduce-by-15
loop re-encodes at most 5 times (along a prefix of `[70, 55, 40, 25, 10]`),
each re-encode happening only while the previous encoded size exceeded
10,000,000 bytes and the previous quality was above 20; afterwards either
the result is within the ceiling and is returned, or a single fallback
re-encode of the half-dimension image at quality 60 is returned regardless
of its size, with no further shrinking. -/
theorem adaptive_encode_bounded (sz : Img → Nat → Nat) (image : Img) :
    (∃ n, n ≤ 5 ∧ qualityLoop (sz image) 85 = List.take n [70, 55, 40, 25, 10]) ∧
    (adaptiveEncode sz image).1 = 85 :: qualityLoop (sz image) 85 ∧
    (∀ i qi qn, (adaptiveEncode sz image).1[i]? = some qi →
      (adaptiveEncode sz image).1[i + 1]? = some qn →
      sz image qi > 10000000 ∧ qi > 20 ∧ qn = qi - 15) ∧
    (sz image ((qualityLoop (sz image) 85).getLastD 85) > 10000000 →
      (adaptiveEncode sz image).2 =
        ⟨⟨image.width / 2, image.height / 2, image.pix⟩, 60,
          sz ⟨image.width / 2, image.height / 2, image.pix⟩ 60⟩) ∧
    (¬sz image ((qualityLoop (sz image) 85).getLastD 85) > 10000000 →
      (adaptiveEncode sz image).2 =
        ⟨image, (qualityLoop (sz image) 85).getLastD 85,
          sz image ((qualityLoop (sz image) 85).getLastD 85)⟩) := by
  have hfst : (adaptiveEncode sz image).1 = 85 :: qualityLoop (sz image) 85 := by
    simp only [adaptiveEncode]
    split <;> rfl
  refine ⟨qualityLoop_shape (sz image), hfst, ?_, fun h => ?_, fun h => ?_⟩
  · rw [hfst]
    exact qualityLoop_chain (sz image) 85
  · simp only [adaptiveEncode]
    rw [if_pos h]
  · simp only [adaptiveEncode]
    rw [if_neg h]

/-- Witness for C3 at a concrete size oracle that always exceeds the
ceiling, exercising all five re-encodes and the fallback. -/
theorem adaptive_encode_bounded_witness :
    (∃ n, n ≤ 5 ∧ qualityLoop ((fun _ _ => 20000000) (⟨640, 480, 7⟩ : Img)) 85 =
      List.take n [70, 55, 40, 25, 10]) ∧
    (adaptiveEncode (fun _ _ => 20000000) ⟨640, 480, 7⟩).1 =
      85 :: qualityLoop ((fun _ _ => 20000000) (⟨640, 480, 7⟩ : Img)) 85 ∧
    (∀ i qi qn,
      (adaptiveEncode (fun _ _ => 20000000) ⟨640, 480, 7⟩).1[i]? = some qi →
      (adaptiveEncode (fun _ _ => 20000000) ⟨640, 480, 7⟩).1[i + 1]? = some qn →
      (fun (_ : Img) (_ : Nat) => 20000000) ⟨640, 480, 7⟩ qi > 10000000 ∧
        qi > 20 ∧ qn = qi - 15) ∧
    ((fun (_ : Img) (_ : Nat) => 20000000) ⟨640, 480, 7⟩
        ((qualityLoop ((fun _ _ => 20000000) (⟨640, 480, 7⟩ : Img)) 85).getLastD 85) >
        10000000 →
      (adaptiveEncode (fun _ _ => 20000000) ⟨640, 480, 7⟩).2 =
        ⟨⟨640 / 2, 480 / 2, 7⟩, 60, 20000000⟩) ∧
    (¬(fun (_ : Img) (_ : Nat) => 20000000) ⟨640, 480, 7⟩
        ((qualityLoop ((fun _ _ => 20000000) (⟨640, 480, 7⟩ : Img)) 85).getLastD 85) >
        10000000 →
      (adaptiveEncode (fun _ _ => 20000000) ⟨640, 480, 7⟩).2 =
        ⟨⟨640, 480, 7⟩,
          (qualityLoop ((fun _ _ => 20000000) (⟨640, 480, 7⟩ : Img)) 85).getLastD 85,
          20000000⟩) :=
  adaptive_encode_bounded (fun _ _ => 20000000) ⟨640, 480, 7⟩

/-- C4 amended.  `mouse_drag` issues exactly three remote calls, in the
order button-down at the start position, move to the end position,
button-up at the end position, with a 50ms wait after the button-down and
another 50ms wait after the move. -/
theorem mouse_drag_three_calls
    (env : Env) (st : MState) (args : Args) (sx sy ex ey b : JVal)
    (hsx : getOpt args "start_x" = some sx)
    (hsy : getOpt args "start_y" = some sy)
    (hex : getOpt args "end_x" = some ex)
    (hey : getOpt args "end_y" = some ey)
    (hb : getDef args "button" (.str "left") = b)
    (hst : st.client = some ())
    (r1 r2 r3 : JVal)
    (h1 : env.call (.mouseDownOp b sx sy) = .ok r1)
    (h2 : env.call (.mouseMoveOp ex ey none) = .ok r2)
    (h3 : env.call (.mouseUpOp b ex ey) = .ok r3) :
    callTool env st "mouse_drag" args =
      (st,
       [.remote (.mouseDownOp b sx sy), .sleepMs 50,
        .remote (.mouseMoveOp ex ey none), .sleepMs 50,
        .remote (.mouseUpOp b ex ey)],
       .text ("Dragged " ++ pyStr b ++ " from (" ++ pyStr sx ++ ", " ++ pyStr sy
         ++ ") to (" ++ pyStr ex ++ ", " ++ pyStr ey ++ ")")) ∧
    ([Event.remote (.mouseDownOp b sx sy), .sleepMs 50,
       .remote (.mouseMoveOp ex ey none), .sleepMs 50,
       .remote (.mouseUpOp b ex ey)].filter Event.isRemote).length = 3 := by
  subst hb
  constructor
  · simp [callTool, getClient, hst, callToolBody, Proc.bind, Proc.pure, reqArg,
      getReq, hsx, hsy, hex, hey, callR, sleepP, h1, h2, h3]
  · rfl

/-- Witness for C4's amended theorem at concrete arguments. -/
theorem mouse_drag_three_calls_witness :
    getOpt dragArgsW "start_x" = some (.num 1) ∧
    getOpt dragArgsW "start_y" = some (.num 2) ∧
    getOpt dragArgsW "end_x" = some (.num 3) ∧
    getOpt dragArgsW "end_y" = some (.num 4) ∧
    getDef dragArgsW "button" (.str "left") = .str "left" ∧
    (MState.mk (some ())).client = some () ∧
    envW.call (.mouseDownOp (.str "left") (.num 1) (.num 2)) = .ok .null ∧
    envW.call (.mouseMoveOp (.num 3) (.num 4) none) = .ok .null ∧
    envW.call (.mouseUpOp (.str "left") (.num 3) (.num 4)) = .ok .null ∧
    callTool envW ⟨some ()⟩ "mouse_drag" dragArgsW =
      (⟨some ()⟩,
       [.remote (.mouseDownOp (.str "left") (.num 1) (.num 2)), .sleepMs 50,
        .remote (.mouseMoveOp (.num 3) (.num 4) none), .sleepMs 50,
        .remote (.mouseUpOp (.str "left") (.num 3) (.num 4))],
       .text ("Dragged " ++ pyStr (.str "left") ++ " from (" ++ pyStr (.num 1)
         ++ ", " ++ pyStr (.num 2) ++ ") to (" ++ pyStr (.num 3) ++ ", "
         ++ pyStr (.num 4) ++ ")")) ∧
    ([Event.remote (.mouseDownOp (.str "left") (.num 1) (.num 2)), .sleepMs 50,
       .remote (.mouseMoveOp (.num 3) (.num 4) none), .sleepMs 50,
       .remote (.mouseUpOp (.str "left") (.num 3) (.num 4))].filter
         Event.isRemote).length = 3 :=
  ⟨rfl, rfl, rfl, rfl, rfl, rfl, rfl, rfl, rfl,
   (mouse_drag_three_calls envW ⟨some ()⟩ dragArgsW (.num 1) (.num 2) (.num 3)
     (.num 4) (.str "left") rfl rfl rfl rfl rfl rfl .null .null .null rfl rfl rfl).1,
   (mouse_drag_three_calls envW ⟨some ()⟩ dragArgsW (.num 1) (.num 2) (.num 3)
     (.num 4) (.str "left") rfl rfl rfl rfl rfl rfl .null .null .null rfl rfl rfl).2⟩

/-- Counterexample to C4 as stated: at concrete arguments the `mouse_drag`
dispatcher issues three remote calls, not four. -/
theorem mouse_drag_not_four_calls :
    ((callTool envW ⟨some ()⟩ "mouse_drag" dragArgsW).2.1.filter
        Event.isRemote).length = 3 ∧
    ¬((callTool envW ⟨some ()⟩ "mouse_drag" dragArgsW).2.1.filter
        Event.isRemote).length = 4 := by
  have h : ((callTool envW ⟨some ()⟩ "mouse_drag" dragArgsW).2.1.filter
      Event.isRemote).length = 3 := rfl
  exact ⟨h, by rw [h]; omega⟩

/-- C7.  `execute_and_read` performs, in order: type the command text, wait
100ms, press enter, wait `wait_seconds` seconds (defaulting to 1.0 when the
argument is absent), fetch a frame, hand it to the capture log, and return
the OCR text of the frame. -/
theorem execute_and_read_sequence
    (env : Env) (st : MState) (args : Args) (cmd : JVal) (w : ℚ)
    (hcmd : getOpt args "command" = some cmd)
    (hw : getOpt args "wait_seconds" = some (.num w) ∨
      (getOpt args "wait_seconds" = none ∧ w = 1))
    (hst : st.client = some ())
    (r1 r2 : JVal) (img : Img)
    (h1 : env.call (.typeTextOp cmd none) = .ok r1)
    (h2 : env.call (.sendKeyOp (.str "enter") none) = .ok r2)
    (h3 : env.fetchFrame 85 = .ok img) :
    callTool env st "execute_and_read" args =
      (st,
       [.remote (.typeTextOp cmd none), .sleepMs 100,
        .remote (.sendKeyOp (.str "enter") none), .sleepMs (1000 * w),
        .remote (.captureFrameOp 85), .captureLog "exec"],
       .text (extractText env.preprocessFn env.ocr img true)) := by
  have hdef : getDef args "wait_seconds" (.num 1) = .num w := by
    rcases hw with h | ⟨h, rfl⟩ <;> simp [getDef, h]
  simp [callTool, getClient, hst, callToolBody, Proc.bind, Proc.pure,
    Proc.ofExcept, reqArg, getReq, hcmd, hdef, callR, sleepP, fetchF, logCap,
    h1, h2, h3, asNum]

/-- Witness for C7 at concrete arguments (`wait_seconds = 2`). -/
theorem execute_and_read_sequence_witness :
    getOpt execArgsW "command" = some (.str "ls") ∧
    getOpt execArgsW "wait_seconds" = some (.num 2) ∧
    (MState.mk (some ())).client = some () ∧
    envW.call (.typeTextOp (.str "ls") none) = .ok .null ∧
    envW.call (.sendKeyOp (.str "enter") none) = .ok .null ∧
    envW.fetchFrame 85 = .ok ⟨640, 480, 7⟩ ∧
    callTool envW ⟨some ()⟩ "execute_and_read" execArgsW =
      (⟨some ()⟩,
       [.remote (.typeTextOp (.str "ls") none), .sleepMs 100,
        .remote (.sendKeyOp (.str "enter") none), .sleepMs (1000 * 2),
        .remote (.captureFrameOp 85), .captureLog "exec"],
       .text (extractText envW.preprocessFn envW.ocr ⟨640, 480, 7⟩ true)) :=
  ⟨rfl, rfl, rfl, rfl, rfl, rfl,
   execute_and_read_sequence envW ⟨some ()⟩ execArgsW (.str "ls") 2 rfl
     (Or.inl rfl) rfl .null .null ⟨640, 480, 7⟩ rfl rfl rfl⟩

/-- C6.  Every tool invocation produces a well-formed result (a text or an
image payload), and any error raised while acquiring the client or running
the per-tool body is converted at the dispatch boundary into a textual
`"Error: ..."` result rather than propagating. -/
theorem call_tool_wellformed (env : Env) (st : MState) (name : String)
    (args : Args) :
    ((∃ s, (callTool env st name args).2.2 = .text s) ∨
      (∃ i q m, (callTool env st name args).2.2 = .image i q m)) ∧
    (∀ e, (getClient env st).2.2 = .error e →
      (callTool env st name args).2.2 = .text ("Error: " ++ e)) ∧
    (∀ e, (getClient env st).2.2 = .ok () →
      (callToolBody env name args).2 = .error e →
      (callTool env st name args).2.2 = .text ("Error: " ++ e)) := by
  refine ⟨?_, fun e he => ?_, fun e hok hbody => ?_⟩
  · rcases hg : (getClient env st).2.2 with e | u
    · exact Or.inl ⟨"Error: " ++ e, by simp [callTool, hg]⟩
    · rcases hb : (callToolBody env name args).2 with e | r
      · exact Or.inl ⟨"Error: " ++ e, by simp [callTool, hg, hb]⟩
      · cases r with
        | text s => exact Or.inl ⟨s, by simp [callTool, hg, hb]⟩
        | image i q m => exact Or.inr ⟨i, q, m, by simp [callTool, hg, hb]⟩
  · simp [callTool, he]
  · simp [callTool, hok, hbody]

/-- Witness for C6: a failing connection and a failing body (missing
required argument) are both converted to textual errors. -/
theorem call_tool_wellformed_witness :
    (getClient envConnFail ⟨none⟩).2.2 = .error "connection refused" ∧
    (callTool envConnFail ⟨none⟩ "mouse_move" []).2.2 =
      .text ("Error: " ++ "connection refused") ∧
    (getClient envW ⟨some ()⟩).2.2 = .ok () ∧
    (callToolBody envW "mouse_move" []).2 = .error "'x'" ∧
    (callTool envW ⟨some ()⟩ "mouse_move" []).2.2 = .text ("Error: " ++ "'x'") ∧
    ((∃ s, (callTool envW ⟨some ()⟩ "mouse_move" []).2.2 = .text s) ∨
      (∃ i q m, (callTool envW ⟨some ()⟩ "mouse_move" []).2.2 = .image i q m)) :=
  ⟨rfl,
   (call_tool_wellformed envConnFail ⟨none⟩ "mouse_move" []).2.1
     "connection refused" rfl,
   rfl, rfl,
   (call_tool_wellformed envW ⟨some ()⟩ "mouse_move" []).2.2 "'x'" rfl rfl,
   (call_tool_wellformed envW ⟨some ()⟩ "mouse_move" []).1⟩

/-- C10.  Every tool invocation first acquires the shared client handle,
lazily constructing and connecting it when absent: a connection failure is
reported as a textual error with no remote call issued, for every tool name
including unknown ones; on success the connect event precedes the body's
events, an existing handle is reused without reconnecting, and an unknown
name yields the textual `Unknown tool` result after the client was
acquired. -/
theorem client_acquired_first (env : Env) (name : String) (args : Args) :
    (∀ e, env.connectRes = .error e →
      callTool env ⟨none⟩ name args =
        (⟨some ()⟩, [.connect], .text ("Error: " ++ e))) ∧
    (env.connectRes = .ok () →
      (callTool env ⟨none⟩ name args).1 = ⟨some ()⟩ ∧
      (callTool env ⟨none⟩ name args).2.1 =
        .connect :: (callToolBody env name args).1) ∧
    ((callTool env ⟨some ()⟩ name args).1 = ⟨some ()⟩ ∧
      (callTool env ⟨some ()⟩ name args).2.1 = (callToolBody env name args).1) ∧
    (name ∉ toolNames → env.connectRes = .ok () →
      (callTool env ⟨none⟩ name args).2.2 = .text ("Unknown tool: " ++ name)) := by
  refine ⟨fun e he => ?_, fun hok => ?_, ?_, fun hname hok => ?_⟩
  · simp [callTool, getClient, he]
  · rcases hb : (callToolBody env name args).2 with e | r <;>
      simp [callTool, getClient, hok, hb]
  · rcases hb : (callToolBody env name args).2 with e | r <;>
      simp [callTool, getClient, hb]
  · simp only [toolNames, List.mem_cons, List.not_mem_nil, or_false,
      not_or] at hname
    obtain ⟨n1, n2, n3, n4, n5, n6, n7, n8, n9, n10, n11, n12, n13, n14⟩ := hname
    simp [callTool, getClient, hok, callToolBody, n1, n2, n3, n4, n5, n6, n7,
      n8, n9, n10, n11, n12, n13, n14, Proc.pure]

/-- Witness for C10: a failing connection is reported textually both for a
capture tool and for an unknown tool (no remote call issued), and with a
healthy connection an unknown tool still acquires the client before
answering `Unknown tool`. -/
theorem client_acquired_first_witness :
    envConnFail.connectRes = .error "connection refused" ∧
    callTool envConnFail ⟨none⟩ "capture_screen" [] =
      (⟨some ()⟩, [.connect], .text ("Error: " ++ "connection refused")) ∧
    callTool envConnFail ⟨none⟩ "frobnicate" [] =
      (⟨some ()⟩, [.connect], .text ("Error: " ++ "connection refused")) ∧
    ("frobnicate" ∉ toolNames) ∧
    envW.connectRes = .ok () ∧
    (callTool envW ⟨none⟩ "frobnicate" []).2.2 =
      .text ("Unknown tool: " ++ "frobnicate") :=
  ⟨rfl,
   (client_acquired_first envConnFail "capture_screen" []).1 "connection refused" rfl,
   (client_acquired_first envConnFail "frobnicate" []).1 "connection refused" rfl,
   by decide, rfl,
   (client_acquired_first envW "frobnicate" []).2.2.2 (by decide) rfl⟩

/-! ### Lemmas about the `_postprocess_text` pipeline -/

/-- Splitting a newline-free list yields it as the single part. -/
theorem splitNl_nlfree (b : List Char) (hb : '\n' ∉ b) : splitNl b = [b] := by
  induction b with
  | nil => rfl
  | cons c t ih =>
    have hc : c ≠ '\n' := fun h => hb (h ▸ List.mem_cons_self c t)
    have ht : '\n' ∉ t := fun h => hb (List.mem_cons_of_mem c h)
    simp [splitNl, hc, ih ht]

/-- Splitting past a newline-free chunk followed by a newline. -/
theorem splitNl_append_nl (a r : List Char) (ha : '\n' ∉ a) :
    splitNl (a ++ '\n' :: r) = a :: splitNl r := by
  induction a with
  | nil => simp [splitNl]
  | cons c t ih =>
    have hc : c ≠ '\n' := fun h => ha (h ▸ List.mem_cons_self c t)
    have ht : '\n' ∉ t := fun h => ha (List.mem_cons_of_mem c h)
    simp [splitNl, hc, ih ht]

/-- Splitting a run of newlines followed by a newline-free tail. -/
theorem splitNl_replicate (k : Nat) (b : List Char) (hb : '\n' ∉ b) :
    splitNl (List.replicate k '\n' ++ b) = List.replicate k [] ++ [b] := by
  induction k with
  | zero => simpa using splitNl_nlfree b hb
  | succ n ih => simpa [splitNl, List.replicate_succ] using ih

/-- `dropWhile` is the identity when the head (if any) fails the test. -/
theorem dropWhile_eq_self_of_head (p : Char → Bool) (l : List Char)
    (h : ∀ c, l.head? = some c → p c = false) : l.dropWhile p = l := by
  cases l with
  | nil => rfl
  | cons c t => exact List.dropWhile_cons_of_neg (by simp [h c rfl])

/-- `rstrip` leaves a list with no whitespace characters unchanged. -/
theorem pyRstrip_nospace (l : List Char)
    (h : ∀ c ∈ l, isPySpace c = false) : pyRstrip l = l := by
  unfold pyRstrip
  rw [dropWhile_eq_self_of_head, List.reverse_reverse]
  intro c hc
  rw [List.head?_reverse] at hc
  exact h c (List.mem_of_mem_getLast? hc)

/-- Unfolding `joinNl` on a list with at least two parts. -/
theorem joinNl_cons_cons (x y : List Char) (ys : List (List Char)) :
    joinNl (x :: y :: ys) = x ++ '\n' :: joinNl (y :: ys) := rfl

/-- Joining one part, `k` empty parts and one last part rebuilds the
`k + 1` newline separators. -/
theorem joinNl_shape (k : Nat) (a b : List Char) :
    joinNl (a :: (List.replicate k [] ++ [b])) =
      a ++ List.replicate (k + 1) '\n' ++ b := by
  induction k generalizing a with
  | zero => simp [joinNl]
  | succ n ih =>
    simp only [List.replicate_succ, List.cons_append]
    rw [joinNl_cons_cons, ih ([] : List Char)]
    simp [List.replicate_succ]

/-- The newline-run scanner passes a newline-free chunk through. -/
theorem collapseNlAux_chunk (a r : List Char) (ha : ∀ c ∈ a, c ≠ '\n') :
    collapseNlAux 0 (a ++ r) = a ++ collapseNlAux 0 r := by
  induction a with
  | nil => rfl
  | cons c t ih =>
    have hc : c ≠ '\n' := ha c (List.mem_cons_self c t)
    have ht : ∀ x ∈ t, x ≠ '\n' := fun x hx => ha x (List.mem_cons_of_mem c hx)
    simp [collapseNlAux, hc, collapsedRun, ih ht]

/-- The scanner accumulates a run of newlines into its counter. -/
theorem collapseNlAux_run (k : Nat) (r : List Char) :
    ∀ n, collapseNlAux n (List.replicate k '\n' ++ r) = collapseNlAux (n + k) r := by
  induction k with
  | zero => simp
  | succ m ih =>
    intro n
    have : collapseNlAux (n + 1) (List.replicate m '\n' ++ r) =
        collapseNlAux (n + 1 + m) r := ih (n + 1)
    simp only [List.replicate_succ, List.cons_append]
    rw [collapseNlAux, if_pos rfl, this]
    congr 1
    omega

/-- The scanner flushes its counter at a non-newline character. -/
theorem collapseNlAux_flush (n : Nat) (c : Char) (r : List Char)
    (hc : c ≠ '\n') :
    collapseNlAux n (c :: r) = collapsedRun n ++ c :: collapseNlAux 0 r := by
  simp [collapseNlAux, hc]

/-- The scanner is the identity on newline-free input. -/
theorem collapseNlAux_nlfree (b : List Char) (hb : ∀ c ∈ b, c ≠ '\n') :
    collapseNlAux 0 b = b := by
  have := collapseNlAux_chunk b [] hb
  simpa [collapseNlAux, collapsedRun] using this

/-- `str.replace` is the identity when some character of the key does not
occur in the subject. -/
theorem pyReplace_nil (k r : List Char) : pyReplace k r [] = [] := by
  simp [pyReplace]

/-- The defining equation of `pyReplace` on a cons cell. -/
theorem pyReplace_cons (k r : List Char) (c : Char) (t : List Char) :
    pyReplace k r (c :: t) =
      if k <+: c :: t then r ++ pyReplace k r (t.drop (k.length - 1))
      else c :: pyReplace k r t := by
  rw [pyReplace]

theorem pyReplace_id_of_not_mem (k r : List Char) (c : Char) (hck : c ∈ k) :
    ∀ l, c ∉ l → pyReplace k r l = l := by
  intro l
  induction l with
  | nil => intro _; exact pyReplace_nil k r
  | cons d t ih =>
    intro hcl
    have hnp : ¬(k <+: d :: t) := fun hp => hcl (hp.subset hck)
    rw [pyReplace_cons, if_neg hnp, ih (fun h => hcl (List.mem_cons_of_mem d h))]

/-- The correction table is the identity on `'|'`-free text. -/
theorem applyCorrections_id (l : List Char) (hl : '|' ∉ l) :
    applyCorrections safeCorrections l = l := by
  simp only [applyCorrections, safeCorrections, List.foldl_cons, List.foldl_nil]
  rw [pyReplace_id_of_not_mem _ _ '|' (by simp) l hl,
    pyReplace_id_of_not_mem _ _ '|' (by simp) l hl,
    pyReplace_id_of_not_mem _ _ '|' (by simp) l hl]

/-- `strip` is the identity when neither end is whitespace. -/
theorem pyStrip_id (l : List Char)
    (hh : ∀ c, l.head? = some c → isPySpace c = false)
    (hl : ∀ c, l.getLast? = some c → isPySpace c = false) :
    pyStrip l = l := by
  unfold pyStrip
  rw [dropWhile_eq_self_of_head _ _ hh, dropWhile_eq_self_of_head, List.reverse_reverse]
  intro c hc
  rw [List.head?_reverse] at hc
  exact hl c hc

/-- C2 amended.  Between two non-blank, whitespace-free, bar-free chunks,
`_postprocess_text` collapses a run of `k ≥ 3` blank lines (that is, `k + 1`
newlines) down to exactly 2 blank lines, while runs of at most 2 blank
lines are preserved unchanged.  In particular 5 blank lines become 2, and 3
blank lines also become 2 rather than being kept. -/
theorem postprocess_blank_lines (k : Nat) (a b : List Char)
    (ha0 : a ≠ []) (hb0 : b ≠ [])
    (ha : ∀ c ∈ a, isPySpace c = false ∧ c ≠ '|')
    (hb : ∀ c ∈ b, isPySpace c = false ∧ c ≠ '|') :
    (3 ≤ k → postprocessTextL (a ++ List.replicate (k + 1) '\n' ++ b) =
      a ++ ('\n' :: '\n' :: '\n' :: b)) ∧
    (k + 1 ≤ 3 → postprocessTextL (a ++ List.replicate (k + 1) '\n' ++ b) =
      a ++ (List.replicate (k + 1) '\n' ++ b)) := by
  have hnlA : '\n' ∉ a := fun h => by
    have := (ha _ h).1
    simp [isPySpace] at this
  have hnlB : '\n' ∉ b := fun h => by
    have := (hb _ h).1
    simp [isPySpace] at this
  have hA' : ∀ c ∈ a, c ≠ '\n' := fun c hc h => hnlA (h ▸ hc)
  have hB' : ∀ c ∈ b, c ≠ '\n' := fun c hc h => hnlB (h ▸ hc)
  have hpipeA : '|' ∉ a := fun h => (ha _ h).2 rfl
  have hpipeB : '|' ∉ b := fun h => (hb _ h).2 rfl
  obtain ⟨d, b', rfl⟩ : ∃ d b', b = d :: b' := by
    cases b with
    | nil => exact absurd rfl hb0
    | cons d b' => exact ⟨d, b', rfl⟩
  have main : postprocessTextL (a ++ List.replicate (k + 1) '\n' ++ d :: b') =
      a ++ (collapsedRun (k + 1) ++ d :: b') := by
    have h1 : a ++ List.replicate (k + 1) '\n' ++ d :: b' =
        a ++ '\n' :: (List.replicate k '\n' ++ d :: b') := by
      simp [List.replicate_succ]
    unfold postprocessTextL
    rw [h1, splitNl_append_nl a _ hnlA, splitNl_replicate k _ hnlB]
    have hmap : List.map pyRstrip (a :: (List.replicate k [] ++ [d :: b'])) =
        a :: (List.replicate k [] ++ [d :: b']) := by
      simp [pyRstrip_nospace a (fun c hc => (ha c hc).1),
        pyRstrip_nospace _ (fun c hc => (hb c hc).1), List.map_replicate,
        show pyRstrip [] = ([] : List Char) from rfl]
    rw [hmap, joinNl_shape k a (d :: b')]
    unfold collapseNl
    rw [List.append_assoc, collapseNlAux_chunk a _ hA',
      collapseNlAux_run (k + 1) (d :: b') 0, Nat.zero_add,
      collapseNlAux_flush (k + 1) d b' (hB' d (List.mem_cons_self d b')),
      collapseNlAux_nlfree b' (fun c hc => hB' c (List.mem_cons_of_mem d hc))]
    rw [applyCorrections_id]
    · apply pyStrip_id
      · intro c hc
        cases a with
        | nil => exact absurd rfl ha0
        | cons e a' =>
          simp only [List.cons_append, List.head?_cons, Option.some.injEq] at hc
          exact hc ▸ (ha e (List.mem_cons_self e a')).1
      · intro c hc
        rw [← List.append_assoc, List.getLast?_append_cons] at hc
        exact (hb c (List.mem_of_mem_getLast? hc)).1
    · intro h
      rcases List.mem_append.mp h with h | h
      · exact hpipeA h
      · rcases List.mem_append.mp h with h | h
        · simp only [collapsedRun, List.mem_replicate] at h
          exact absurd h.2 (by decide)
        · exact hpipeB h
  refine ⟨fun h3 => ?_, fun h3 => ?_⟩
  · rw [main]
    have h4 : 4 ≤ k + 1 := by omega
    have : collapsedRun (k + 1) = ['\n', '\n', '\n'] := by
      simp [collapsedRun, h4]
    rw [this]
    rfl
  · rw [main]
    have h4 : ¬4 ≤ k + 1 := by omega
    have : collapsedRun (k + 1) = List.replicate (k + 1) '\n' := by
      simp only [collapsedRun, if_neg h4]
    rw [this]

/-- Witness for C2's amended theorem: 5 blank lines collapse to 2; 1 blank
line is preserved. -/
theorem postprocess_blank_lines_witness :
    (postprocessTextL (['a'] ++ List.replicate (5 + 1) '\n' ++ ['b']) =
      ['a'] ++ ('\n' :: '\n' :: '\n' :: ['b'])) ∧
    (postprocessTextL (['a'] ++ List.replicate (1 + 1) '\n' ++ ['b']) =
      ['a'] ++ (List.replicate (1 + 1) '\n' ++ ['b'])) :=
  ⟨(postprocess_blank_lines 5 ['a'] ['b'] (by simp) (by simp)
      (by intro c hc; simp at hc; simp [hc, isPySpace])
      (by intro c hc; simp at hc; simp [hc, isPySpace])).1 (by omega),
   (postprocess_blank_lines 1 ['a'] ['b'] (by simp) (by simp)
      (by intro c hc; simp at hc; simp [hc, isPySpace])
      (by intro c hc; simp at hc; simp [hc, isPySpace])).2 (by omega)⟩

/-- Counterexample to C2 as stated: an input whose text has exactly 3
consecutive blank lines (`"a"` then four newlines then `"b"`) does not keep
them; postprocessing returns it with only 2 blank lines. -/
theorem postprocess_three_blank_lines_not_kept :
    postprocessText "a\n\n\n\nb" = "a\n\n\nb" ∧
    postprocessText "a\n\n\n\nb" ≠ "a\n\n\n\nb" := by
  have h : postprocessText "a\n\n\n\nb" = "a\n\n\nb" := by
    show String.mk (postprocessTextL "a\n\n\n\nb".data) = "a\n\n\nb"
    have hd : "a\n\n\n\nb".data = ['a', '\n', '\n', '\n', '\n', 'b'] := rfl
    rw [hd]
    simp +decide [postprocessTextL, pyStrip, applyCorrections, safeCorrections,
      collapseNl, collapseNlAux, collapsedRun, joinNl, splitNl, pyRstrip,
      pyReplace, isPySpace]
  exact ⟨h, by rw [h]; decide⟩

/-! ### Commutation of the `safe_corrections` substitutions (C8)

The three keys pairwise overlap only at their boundary characters, and
every replacement keeps those boundary characters and never contains `'|'`,
so replacing with one key neither creates nor destroys occurrences of
another.  The lemmas below make that exact and give full commutation. -/

theorem okey_prefix_iff (x y : Char) (s : List Char) :
    okey x y <+: s ↔ ∃ v, s = x :: '|' :: 's' :: y :: v := by
  constructor
  · rintro ⟨t, rfl⟩
    exact ⟨t, rfl⟩
  · rintro ⟨v, rfl⟩
    exact ⟨v, rfl⟩

theorem okey_prefix_cons (x y c : Char) (t : List Char) :
    okey x y <+: c :: t ↔ c = x ∧ ('|' :: 's' :: y :: []) <+: t := by
  simp only [okey, List.cons_prefix_cons]
  exact and_congr_left fun _ => eq_comm

theorem repl_nil (x y : Char) : repl x y [] = [] :=
  pyReplace_nil _ _

theorem repl_match (x y : Char) (v : List Char) :
    repl x y (x :: '|' :: 's' :: y :: v) = x :: 'l' :: 's' :: y :: repl x y v := by
  unfold repl
  rw [pyReplace_cons,
    if_pos (show okey x y <+: x :: '|' :: 's' :: y :: v from ⟨v, rfl⟩)]
  simp [okey, oval]

theorem repl_skip (x y c : Char) (t : List Char) (h : ¬okey x y <+: c :: t) :
    repl x y (c :: t) = c :: repl x y t := by
  unfold repl
  rw [pyReplace_cons, if_neg h]

theorem np_head (x y c : Char) (t : List Char) (h : c ≠ x) :
    ¬okey x y <+: c :: t := fun hp => h ((okey_prefix_cons x y c t).1 hp).1

theorem np_fourth (x y c d e f : Char) (t : List Char) (h : f ≠ y) :
    ¬okey x y <+: c :: d :: e :: f :: t := by
  rw [okey_prefix_iff]
  rintro ⟨v, hv⟩
  simp only [List.cons.injEq] at hv
  exact h hv.2.2.2.1

/-- Replacement preserves the head character. -/
theorem repl_head (x y : Char) (z : List Char) :
    (repl x y z).head? = z.head? := by
  cases z with
  | nil => rw [repl_nil]
  | cons c t =>
    by_cases h : okey x y <+: c :: t
    · rcases (okey_prefix_iff x y _).1 h with ⟨v, hv⟩
      rw [hv, repl_match]
      rfl
    · rw [repl_skip x y c t h]
      rfl

/-- A single-character pattern occurs at the front of `repl x y u` exactly
when it occurs at the front of `u`. -/
theorem repl_pre1 (x y p : Char) (u : List Char) :
    ([p] <+: repl x y u) ↔ ([p] <+: u) := by
  have h1 : ∀ z : List Char, ([p] <+: z) ↔ z.head? = some p := by
    intro z
    cases z with
    | nil => simp
    | cons c t => simp [List.cons_prefix_cons, eq_comm]
  rw [h1, h1, repl_head]

/-- The pattern `['s', p]` occurs at the front of `repl x y w` exactly when
it occurs at the front of `w`, provided `x ≠ 's'`. -/
theorem repl_pre2 (x y : Char) (hx2 : x ≠ 's') (p : Char) (w : List Char) :
    (('s' :: p :: []) <+: repl x y w) ↔ (('s' :: p :: []) <+: w) := by
  cases w with
  | nil => rw [repl_nil]
  | cons e u =>
    by_cases h : okey x y <+: e :: u
    · rcases (okey_prefix_iff x y _).1 h with ⟨v, hv⟩
      rw [hv, repl_match]
      simp [List.cons_prefix_cons, Ne.symm hx2]
    · rw [repl_skip x y e u h]
      simp only [List.cons_prefix_cons]
      exact and_congr_right fun _ => by
        rw [show (p :: []) = [p] from rfl, repl_pre1]

/-- The pattern `['|', 's', p]` occurs at the front of `repl x y v` exactly
when it occurs at the front of `v`, provided `x ∉ {'|', 's'}`. -/
theorem repl_pre3 (x y : Char) (hx1 : x ≠ '|') (hx2 : x ≠ 's') (p : Char)
    (v : List Char) :
    (('|' :: 's' :: p :: []) <+: repl x y v) ↔ (('|' :: 's' :: p :: []) <+: v) := by
  cases v with
  | nil => rw [repl_nil]
  | cons d w =>
    by_cases h : okey x y <+: d :: w
    · rcases (okey_prefix_iff x y _).1 h with ⟨v2, hv⟩
      rw [hv, repl_match]
      simp [List.cons_prefix_cons, Ne.symm hx1]
    · rw [repl_skip x y d w h]
      simp only [List.cons_prefix_cons]
      exact and_congr_right fun _ => repl_pre2 x y hx2 p w

/-- Occurrence of a key at the front is invariant under replacing with a
different safe key. -/
theorem repl_pre4 (x y : Char) (hx1 : x ≠ '|') (hx2 : x ≠ 's') (b0 b3 c : Char)
    (t : List Char) :
    (okey b0 b3 <+: c :: repl x y t) ↔ (okey b0 b3 <+: c :: t) := by
  rw [okey_prefix_cons, okey_prefix_cons]
  exact and_congr_right fun _ => repl_pre3 x y hx1 hx2 b3 t

/-- The head-preservation fact in existential form. -/
theorem repl_cons_shape (x y c : Char) (t : List Char) :
    ∃ u, repl x y (c :: t) = c :: u := by
  have hh := repl_head x y (c :: t)
  cases hz : repl x y (c :: t) with
  | nil =>
    rw [hz] at hh
    simp at hh
  | cons e u =>
    rw [hz] at hh
    simp only [List.head?_cons, Option.some.injEq] at hh
    exact ⟨u, by rw [hh]⟩

/-- Commutation when the subject starts with a full match of the first
key: reduces to the mixed statement `hQ` on the remainder. -/
theorem repl_comm_match (a0 a3 b0 b3 : Char)
    (hb0 : safeB b0)
    (hne : a0 ≠ b0 ∨ a3 ≠ b3) (v : List Char)
    (hQ : repl b0 b3 (a3 :: repl a0 a3 v) =
      a3 :: repl a0 a3 ((repl b0 b3 (a3 :: v)).tail)) :
    repl b0 b3 (repl a0 a3 (a0 :: '|' :: 's' :: a3 :: v)) =
      repl a0 a3 (repl b0 b3 (a0 :: '|' :: 's' :: a3 :: v)) := by
  obtain ⟨hb0p, hb0s, hb0l⟩ := hb0
  obtain ⟨w, hw⟩ := repl_cons_shape b0 b3 a3 v
  have hBs : ¬okey b0 b3 <+: a0 :: '|' :: 's' :: a3 :: v := by
    rcases hne with h | h
    · exact np_head _ _ _ _ h
    · exact np_fourth _ _ _ _ _ _ _ h
  have hL : repl b0 b3 (repl a0 a3 (a0 :: '|' :: 's' :: a3 :: v)) =
      a0 :: 'l' :: 's' :: repl b0 b3 (a3 :: repl a0 a3 v) := by
    rw [repl_match a0 a3 v]
    rw [repl_skip b0 b3 a0 _ (by
      rw [okey_prefix_cons]
      rintro ⟨-, h2⟩
      rw [List.cons_prefix_cons] at h2
      exact absurd h2.1 (by decide))]
    rw [repl_skip b0 b3 'l' _ (np_head _ _ _ _ (Ne.symm hb0l))]
    rw [repl_skip b0 b3 's' _ (np_head _ _ _ _ (Ne.symm hb0s))]
  have hR1 : repl b0 b3 (a0 :: '|' :: 's' :: a3 :: v) =
      a0 :: '|' :: 's' :: repl b0 b3 (a3 :: v) := by
    rw [repl_skip b0 b3 a0 _ hBs]
    rw [repl_skip b0 b3 '|' _ (np_head _ _ _ _ (Ne.symm hb0p))]
    rw [repl_skip b0 b3 's' _ (np_head _ _ _ _ (Ne.symm hb0s))]
  have hR : repl a0 a3 (repl b0 b3 (a0 :: '|' :: 's' :: a3 :: v)) =
      a0 :: 'l' :: 's' :: a3 :: repl a0 a3 w := by
    rw [hR1, hw, repl_match a0 a3 w]
  rw [hL, hQ, hw, hR, List.tail_cons]

/-- The mixed statement when the second key does not match at the front:
reduces to plain commutation on the remainder. -/
theorem repl_aux_nomatch (a0 a3 b0 b3 d : Char) (v : List Char)
    (ha0p : a0 ≠ '|') (ha0s : a0 ≠ 's')
    (hB : ¬okey b0 b3 <+: d :: v)
    (hP : repl b0 b3 (repl a0 a3 v) = repl a0 a3 (repl b0 b3 v)) :
    repl b0 b3 (d :: repl a0 a3 v) =
      d :: repl a0 a3 ((repl b0 b3 (d :: v)).tail) := by
  have hB' : ¬okey b0 b3 <+: d :: repl a0 a3 v := by
    rw [repl_pre4 a0 a3 ha0p ha0s]
    exact hB
  rw [repl_skip b0 b3 d _ hB', repl_skip b0 b3 d v hB, List.tail_cons, hP]

/-- The mixed statement when the second key matches at the front: reduces
to the mixed statement with the keys interchanged on the remainder. -/
theorem repl_aux_match (a0 a3 b0 b3 : Char) (w : List Char)
    (ha0 : safeB a0)
    (hQ2 : repl a0 a3 (b3 :: repl b0 b3 w) =
      b3 :: repl b0 b3 ((repl a0 a3 (b3 :: w)).tail)) :
    repl b0 b3 (b0 :: repl a0 a3 ('|' :: 's' :: b3 :: w)) =
      b0 :: repl a0 a3 ((repl b0 b3 (b0 :: '|' :: 's' :: b3 :: w)).tail) := by
  obtain ⟨ha0p, ha0s, ha0l⟩ := ha0
  obtain ⟨u, hu⟩ := repl_cons_shape a0 a3 b3 w
  have hI : repl a0 a3 ('|' :: 's' :: b3 :: w) = '|' :: 's' :: b3 :: u := by
    rw [repl_skip a0 a3 '|' _ (np_head _ _ _ _ (Ne.symm ha0p)),
      repl_skip a0 a3 's' _ (np_head _ _ _ _ (Ne.symm ha0s)), hu]
  rw [hI, repl_match b0 b3 u, repl_match b0 b3 w, List.tail_cons]
  rw [repl_skip a0 a3 'l' _ (np_head _ _ _ _ (Ne.symm ha0l)),
    repl_skip a0 a3 's' _ (np_head _ _ _ _ (Ne.symm ha0s)), hQ2, hu,
    List.tail_cons]

/-- Full commutation of two distinct safe-boundary substitutions, proved
simultaneously with the mixed statement by strong induction on a combined
size measure. -/
theorem repl_comm_all (N : Nat) :
    (∀ a0 a3 b0 b3, safeB a0 → safeB a3 → safeB b0 → safeB b3 →
      (a0 ≠ b0 ∨ a3 ≠ b3) → ∀ s : List Char, 2 * s.length ≤ N →
      repl b0 b3 (repl a0 a3 s) = repl a0 a3 (repl b0 b3 s)) ∧
    (∀ a0 a3 b0 b3, safeB a0 → safeB a3 → safeB b0 → safeB b3 →
      (a0 ≠ b0 ∨ a3 ≠ b3) → ∀ (d : Char) (v : List Char),
      2 * v.length + 1 ≤ N →
      repl b0 b3 (d :: repl a0 a3 v) =
        d :: repl a0 a3 ((repl b0 b3 (d :: v)).tail)) := by
  induction N using Nat.strong_induction_on with
  | _ N IH =>
    constructor
    · intro a0 a3 b0 b3 ha0 ha3 hb0 hb3 hne s hs
      cases s with
      | nil => simp [repl_nil]
      | cons c t =>
        by_cases hA : okey a0 a3 <+: c :: t
        · rcases (okey_prefix_iff a0 a3 _).1 hA with ⟨v, hv⟩
          have hlen : (c :: t).length = v.length + 4 := by rw [hv]; rfl
          rw [hv]
          exact repl_comm_match a0 a3 b0 b3 hb0 hne v
            ((IH (2 * v.length + 1) (by omega)).2 a0 a3 b0 b3 ha0 ha3 hb0 hb3
              hne a3 v (le_refl _))
        · by_cases hB : okey b0 b3 <+: c :: t
          · rcases (okey_prefix_iff b0 b3 _).1 hB with ⟨v, hv⟩
            have hlen : (c :: t).length = v.length + 4 := by rw [hv]; rfl
            rw [hv]
            exact (repl_comm_match b0 b3 a0 a3 ha0
              (hne.imp Ne.symm Ne.symm) v
              ((IH (2 * v.length + 1) (by omega)).2 b0 b3 a0 a3 hb0 hb3 ha0 ha3
                (hne.imp Ne.symm Ne.symm) b3 v (le_refl _))).symm
          · have hA' : ¬okey a0 a3 <+: c :: repl b0 b3 t := by
              rw [repl_pre4 b0 b3 hb0.1 hb0.2.1]
              exact hA
            have hB' : ¬okey b0 b3 <+: c :: repl a0 a3 t := by
              rw [repl_pre4 a0 a3 ha0.1 ha0.2.1]
              exact hB
            rw [repl_skip a0 a3 c t hA, repl_skip b0 b3 c t hB,
              repl_skip b0 b3 c _ hB', repl_skip a0 a3 c _ hA']
            have ht := (IH (2 * t.length) (by simp at hs; omega)).1 a0 a3 b0 b3
              ha0 ha3 hb0 hb3 hne t (le_refl _)
            rw [ht]
    · intro a0 a3 b0 b3 ha0 ha3 hb0 hb3 hne d v hv
      by_cases hB : okey b0 b3 <+: d :: v
      · rcases (okey_prefix_iff b0 b3 _).1 hB with ⟨w, hw⟩
        have hd : d = b0 := by
          injection hw with h1 _
        have hv2 : v = '|' :: 's' :: b3 :: w := by
          injection hw with _ h2
        have hlen : v.length = w.length + 3 := by rw [hv2]; rfl
        rw [hd, hv2]
        exact repl_aux_match a0 a3 b0 b3 w ha0
          ((IH (2 * w.length + 1) (by omega)).2 b0 b3 a0 a3 hb0 hb3 ha0 ha3
            (hne.imp Ne.symm Ne.symm) b3 w (le_refl _))
      · exact repl_aux_nomatch a0 a3 b0 b3 d v ha0.1 ha0.2.1 hB
          ((IH (2 * v.length) (by omega)).1 a0 a3 b0 b3 ha0 ha3 hb0 hb3 hne v
            (le_refl _))

/-- Two distinct safe-boundary substitutions commute on every subject. -/
theorem repl_comm (a0 a3 b0 b3 : Char)
    (ha0 : safeB a0) (ha3 : safeB a3) (hb0 : safeB b0) (hb3 : safeB b3)
    (hne : a0 ≠ b0 ∨ a3 ≠ b3) (s : List Char) :
    repl b0 b3 (repl a0 a3 s) = repl a0 a3 (repl b0 b3 s) :=
  (repl_comm_all (2 * s.length)).1 a0 a3 b0 b3 ha0 ha3 hb0 hb3 hne s (le_refl _)

/-- C8.  The `safe_corrections` substitutions are literal and
order-independent: applying the table's entries in any order gives the same
result on every input.  (The keys do overlap at their boundary characters,
but every replacement preserves those boundaries and introduces no new
`'|'`, so the entries commute pairwise.) -/
theorem corrections_order_independent (tbl : List (List Char × List Char))
    (hperm : tbl.Perm safeCorrections) (l : List Char) :
    applyCorrections tbl l = applyCorrections safeCorrections l := by
  unfold applyCorrections
  refine hperm.foldl_eq' ?_ l
  intro x hx y hy z
  have hx' : x ∈ safeCorrections := hperm.mem_iff.mp hx
  have hy' : y ∈ safeCorrections := hperm.mem_iff.mp hy
  simp only [safeCorrections, List.mem_cons, List.not_mem_nil, or_false] at hx' hy'
  have sSp : safeB ' ' := ⟨by decide, by decide, by decide⟩
  have sNl : safeB '\n' := ⟨by decide, by decide, by decide⟩
  rcases hx' with rfl | rfl | rfl <;> rcases hy' with rfl | rfl | rfl
  · rfl
  · exact repl_comm ' ' ' ' ' ' '\n' sSp sSp sSp sNl (Or.inr (by decide)) z
  · exact repl_comm ' ' ' ' '\n' ' ' sSp sSp sNl sSp (Or.inl (by decide)) z
  · exact repl_comm ' ' '\n' ' ' ' ' sSp sNl sSp sSp (Or.inr (by decide)) z
  · rfl
  · exact repl_comm ' ' '\n' '\n' ' ' sSp sNl sNl sSp (Or.inl (by decide)) z
  · exact repl_comm '\n' ' ' ' ' ' ' sNl sSp sSp sSp (Or.inl (by decide)) z
  · exact repl_comm '\n' ' ' ' ' '\n' sNl sSp sSp sNl (Or.inl (by decide)) z
  · rfl

/-- Witness for C8: a reversed table gives the same result as the source
order on a subject exercising all three keys and their overlaps. -/
theorem corrections_order_independent_witness :
    (safeCorrections.reverse).Perm safeCorrections ∧
    applyCorrections safeCorrections.reverse
        (' ' :: '|' :: 's' :: '\n' :: '|' :: 's' :: ' ' :: '|' :: 's' :: ' ' :: []) =
      applyCorrections safeCorrections
        (' ' :: '|' :: 's' :: '\n' :: '|' :: 's' :: ' ' :: '|' :: 's' :: ' ' :: []) :=
  ⟨List.reverse_perm safeCorrections,
   corrections_order_independent safeCorrections.reverse
     (List.reverse_perm safeCorrections)
     (' ' :: '|' :: 's' :: '\n' :: '|' :: 's' :: ' ' :: '|' :: 's' :: ' ' :: [])⟩

end KvmSpec
